import Mathlib

/-!
Shallow embedding of `src/promise.rs`: the bridge between the QuickJS
promise system and host-side futures.  Pure data is translated directly;
engine interaction (object checks, function calls, waker invocation, the
lock) is made explicit as parameters and event traces.
-/

namespace PromiseBridge

/-- Engine values are abstracted by an identifier; the embedding never
inspects their payload. -/
abbrev JSVal := Nat

/-- A wake handle is abstracted by an identifier; cloning preserves it. -/
abbrev Waker := Nat

/-- An engine function handle (the `then` / resolve / reject functions). -/
abbrev FuncId := Nat

/-- The error type of the bridge, following the variants `promise.rs`
actually uses: `typeConversion` models the FromJs conversion failures
(spec taxonomy: TypeConversion), `exception` models a script-produced
error value (spec taxonomy: ScriptError / CallFailure payloads), and
`unknown` models `Error::Unknown`, returned when the runtime handle can
no longer be obtained (spec taxonomy: Unavailable). -/
inductive Error where
  | typeConversion (src dst : String)
  | exception (v : JSVal)
  | unknown
deriving DecidableEq, Repr

/-- `struct State<T> { result: Option<Result<T>>, waker: Option<Waker> }`,
the shared completion cell of `Promise<T>` (spec: SharedCompletionState). -/
structure State (T : Type) where
  result : Option (Except Error T)
  waker : Option Waker

/-- `State::default()`: both fields empty. -/
def State.default (T : Type) : State T := { result := none, waker := none }

/-- `State::resolve`:
```
fn resolve(&mut self, result: Result<T>) {
    self.result = Some(result);
    if let Some(waker) = self.waker.take() { waker.wake() }
}
```
Returns the updated state together with the list of wake handles invoked
during the call (each element is one `wake()` invocation, in order). -/
def State.resolve {T : Type} (s : State T) (r : Except Error T) :
    State T × List Waker :=
  ({ result := some r, waker := none }, s.waker.toList)

/-- The host-side poll result, `Poll<Result<T>>`. -/
inductive PollRes (T : Type) where
  | Ready (r : Except Error T)
  | Pending

/-- Whether a poll result is `Pending`. -/
def PollRes.isPending {T : Type} : PollRes T → Bool
  | .Pending => true
  | .Ready _ => false

/-- `<Promise<T> as Future>::poll`:
```
let mut state = self.state.lock();
if let Some(result) = state.result.take() { return Poll::Ready(result); }
state.waker = cx.waker().clone().into();
Poll::Pending
```
The waker argument is the current task's wake handle from `cx`. -/
def Promise.poll {T : Type} (s : State T) (w : Waker) : PollRes T × State T :=
  match s.result with
  | some r => (.Ready r, { s with result := none })
  | none => (.Pending, { s with waker := some w })

/-- Iterated polling of the same promise with a sequence of wake handles;
returns the poll results in order and the final state. -/
def Promise.pollMany {T : Type} (s : State T) (ws : List Waker) :
    List (PollRes T) × State T :=
  match ws with
  | [] => ([], s)
  | w :: rest =>
    let p := Promise.poll s w
    let q := Promise.pollMany p.2 rest
    (p.1 :: q.1, q.2)

/-- The `onSuccess` closure registered by `from_js`:
`move |ctx, value| { state.lock().resolve(T::from_js(ctx, value)) }`.
The conversion `T::from_js` is abstracted by the parameter `convT`. -/
def on_ok {T : Type} (convT : JSVal → Except Error T) (v : JSVal)
    (s : State T) : State T × List Waker :=
  s.resolve (convT v)

/-- The `onError` closure registered by `from_js`:
`move |error| { state.lock().resolve(Err(error)) }`. -/
def on_err {T : Type} (e : Error) (s : State T) : State T × List Waker :=
  s.resolve (.error e)

/-- An engine value as observed by `from_js`: whether it is an object,
whether it carries a callable `then` property, and the outcome of the
initial `then` invocation with the two registered callbacks. -/
structure EngineVal where
  isObject : Bool
  hasCallableThen : Bool
  thenCallResult : Except Error Unit

/-- Modelled from the spec: `Object::from_js` (code of this repository
outside `src/`), used by `from_js` as `Object::from_js(ctx, value)?`.
Per the spec it "fails with a TypeConversion error if the value is not an
object". -/
def Object.from_js (v : EngineVal) : Except Error EngineVal :=
  if v.isObject then .ok v else .error (.typeConversion "value" "object")

/-- Modelled from the spec: `obj.get::<_, Function>("then")` (code of this
repository outside `src/`), used by `from_js` as
`let then: Function = obj.get("then")?`.  Per the spec it fails with a
TypeConversion error if the object "lacks a callable then". -/
def getThenFn (v : EngineVal) : Except Error Unit :=
  if v.hasCallableThen then .ok ()
  else .error (.typeConversion "value" "function")

/-- `<Promise<T> as FromJs>::from_js`:
```
let obj = Object::from_js(ctx, value)?;
let then: Function = obj.get("then")?;
let state = SafeRef::new(State::default());
... (register on_ok / on_err closing over clones of state) ...
then.call((This(obj), on_ok, on_err))?;
Ok(Self { state })
```
Each `?` propagates the failure synchronously; the `then` invocation's
outcome is the field `thenCallResult`.  On success the returned promise
holds a fresh default state. -/
def Promise.from_js (T : Type) (v : EngineVal) : Except Error (State T) :=
  match Object.from_js v with
  | .error e => .error e
  | .ok obj =>
    match getThenFn obj with
    | .error e => .error e
    | .ok _ =>
      match obj.thenCallResult with
      | .error e => .error e
      | .ok _ => .ok (State.default T)

/-- The promise triple returned by `ctx.promise()`: the promise object,
its resolve function (`then`) and its reject function (`catch`). -/
structure PromiseTriple where
  promise : JSVal
  thenFn : FuncId
  catchFn : FuncId

/-- The two persisted function handles held by the spawned task. -/
inductive Handle where
  | thenFn
  | catchFn
deriving DecidableEq, Repr

/-- Events of the task spawned by `into_js`, in program order:
completion of `future.await`, `runtime.inner.lock()`, the
`result.into_js(ctx)` conversion, `mem::drop` of the unused function
handle, the `resolve(ctx, f, v)` invocation, and `mem::drop(rt_lock)`. -/
inductive Ev where
  | awaitHost
  | lockAcquire
  | convertOutcome
  | dropHandle (h : Handle)
  | invoke (h : Handle) (arg : JSVal)
  | lockRelease
deriving DecidableEq, Repr

/-- The body of the task spawned by `PromiseJs::into_js`:
```
let result = future.await;
let rt_lock = runtime.inner.lock();
let ctx = Ctx::from_ptr(ctx);
match result.into_js(ctx) {
    Ok(value) => { mem::drop(catch); resolve(ctx, then.restore(ctx).unwrap(), value) }
    Err(error) => { mem::drop(then);
                    resolve(ctx, catch.restore(ctx).unwrap(), error.into_js(ctx).unwrap()) }
};
mem::drop(rt_lock);
```
`outcomeToJs` abstracts `result.into_js(ctx)` (the awaited outcome is
folded into it) and `errorToJs` abstracts the infallible
`error.into_js(ctx).unwrap()`.  The value is the task's event trace. -/
def spawnedTask (outcomeToJs : Except Error JSVal)
    (errorToJs : Error → JSVal) : List Ev :=
  [.awaitHost, .lockAcquire, .convertOutcome] ++
  (match outcomeToJs with
   | .ok v => [.dropHandle .catchFn, .invoke .thenFn v]
   | .error e => [.dropHandle .thenFn, .invoke .catchFn (errorToJs e)]) ++
  [.lockRelease]

/-- `PromiseJs::into_js`:
```
let (promise, then, catch) = ctx.promise()?;
let then = Persistent::save(ctx, then);
let catch = Persistent::save(ctx, catch);
let runtime = unsafe { &ctx.get_opaque().runtime }.try_ref().ok_or(Error::Unknown)?;
crate::async_shim::spawn_local(async move { ... });
Ok(promise.into_value())
```
`triple` abstracts `ctx.promise()` and `runtimeAlive` whether `try_ref`
succeeds.  On success the promise value is returned immediately together
with the spawned task's trace. -/
def PromiseJs.into_js (triple : Except Error PromiseTriple)
    (runtimeAlive : Bool) (outcomeToJs : Except Error JSVal)
    (errorToJs : Error → JSVal) : Except Error (JSVal × List Ev) :=
  match triple with
  | .error e => .error e
  | .ok t =>
    if runtimeAlive then
      .ok (t.promise, spawnedTask outcomeToJs errorToJs)
    else
      .error .unknown

/-- Observable effects of the resolution-strategy dispatch: invoking an
engine function, writing a diagnostic line (`eprintln!`), or enqueuing a
job on the engine's job queue (`JS_EnqueueJob`). -/
inductive ResolveEffect where
  | callFn (f : FuncId) (v : JSVal)
  | logError (e : Error)
  | enqueueJob (f : FuncId) (v : JSVal)
deriving DecidableEq, Repr

/-- Whether an effect is a diagnostic log entry. -/
def ResolveEffect.isLog : ResolveEffect → Bool
  | .logError _ => true
  | _ => false

/-- The immediate resolution strategy:
```
fn resolve(_ctx, func, value) {
    if let Err(error) = func.call::<_, Value>((value,)) {
        eprintln!("Error when promise resolution: {}", error);
    }
}
```
`call` abstracts the engine call; the function returns only its effect
list, so no failure is propagated to a caller. -/
def resolveImmediate (call : FuncId → JSVal → Except Error JSVal)
    (func : FuncId) (value : JSVal) : List ResolveEffect :=
  match call func value with
  | .ok _ => [.callFn func value]
  | .error e => [.callFn func value, .logError e]

/-- The deferred resolution strategy:
```
fn resolve(ctx, func, value) {
    ... qjs::JS_EnqueueJob(ctx.ctx, Some(resolution_job), ...) ...
}
```
It only enqueues the function/value pair as a job; the call itself
happens later in `resolution_job`. -/
def resolveDeferred (func : FuncId) (value : JSVal) : List ResolveEffect :=
  [.enqueueJob func value]

/-- `resolution_job`: executed later by the engine's job-draining loop;
it performs `JS_Call` and returns the call's outcome (exception included)
to that loop. -/
def resolution_job (call : FuncId → JSVal → Except Error JSVal)
    (func : FuncId) (value : JSVal) : Except Error JSVal :=
  call func value

end PromiseBridge

namespace PromiseBridge

/-- C1: the claim asserts a second `resolve` never overwrites the stored
outcome.  The code stores unconditionally (`self.result = Some(result)`),
so a second call does overwrite: starting from the empty state, resolving
with `Ok 1` and then `Ok 2` leaves `Ok 2` stored, not `Ok 1`. -/
theorem c1_second_resolve_overwrites :
    ((State.default Nat).resolve (.ok 1)).1.result = some (.ok 1) ∧
    (((State.default Nat).resolve (.ok 1)).1.resolve (.ok 2)).1.result
      = some (.ok 2) ∧
    (some (Except.ok 2) : Option (Except Error Nat)) ≠ some (.ok 1) := by
  refine ⟨rfl, rfl, ?_⟩
  simp

/-- C1 (amended): `resolve` stores unconditionally, so a second call after
a result is stored overwrites the stored outcome with the new one; the
second call invokes no wake handle, because the first call cleared the
waker, and while a result remains stored no poll can install a new waker
(such a poll takes the result instead). -/
theorem c1_amended_second_resolve {T : Type} (s : State T)
    (r1 r2 : Except Error T) (w : Waker) :
    ((s.resolve r1).1.resolve r2).1.result = some r2 ∧
    ((s.resolve r1).1.resolve r2).2 = [] ∧
    (s.resolve r1).1.result = some r1 ∧
    (Promise.poll (s.resolve r1).1 w).1 = .Ready r1 := by
  refine ⟨rfl, rfl, rfl, rfl⟩

/-- C2: when a result is stored, `poll` takes it out and returns `Ready`,
and a further poll does not re-return it (it is `Pending`); when no result
is stored, `poll` overwrites the waker slot with the current wake handle
and returns `Pending`. -/
theorem c2_poll_contract {T : Type} (s : State T) (w w2 : Waker) :
    (∀ r, s.result = some r →
      Promise.poll s w = (.Ready r, { s with result := none }) ∧
      (Promise.poll (Promise.poll s w).2 w2).1 = .Pending) ∧
    (s.result = none →
      Promise.poll s w = (.Pending, { s with waker := some w })) := by
  constructor
  · intro r hr
    simp [Promise.poll, hr]
  · intro hn
    simp [Promise.poll, hn]

/-- C2 witness: a state holding `Ok 5` polled with handle `1` yields
`Ready (Ok 5)` and empties the slot; re-polling yields `Pending`; a state
with an empty slot polled with handle `1` stores that handle and yields
`Pending`. -/
theorem c2_poll_contract_witness :
    (Promise.poll { result := some (.ok 5), waker := some 3 } 1
      = (.Ready (.ok 5), ({ result := none, waker := some 3 } : State Nat)) ∧
     (Promise.poll (Promise.poll
        ({ result := some (.ok 5), waker := some 3 } : State Nat) 1).2 2).1
      = .Pending) ∧
    Promise.poll ({ result := none, waker := some 3 } : State Nat) 1
      = (.Pending, { result := none, waker := some 1 }) :=
  ⟨(c2_poll_contract { result := some (.ok 5), waker := some 3 } 1 2).1
      (.ok 5) rfl,
   (c2_poll_contract { result := none, waker := some 3 } 1 2).2 rfl⟩

/-- C3: `resolve` stores the outcome; if a wake handle is present it
invokes exactly that handle exactly once within the call and clears it;
if none is present, none is invoked. -/
theorem c3_resolve_wakes {T : Type} (s : State T) (r : Except Error T) :
    (s.resolve r).1.result = some r ∧
    (s.resolve r).1.waker = none ∧
    (∀ w, s.waker = some w → (s.resolve r).2 = [w]) ∧
    (s.waker = none → (s.resolve r).2 = []) := by
  refine ⟨rfl, rfl, ?_, ?_⟩
  · intro w hw
    simp [State.resolve, hw]
  · intro hn
    simp [State.resolve, hn]

/-- C3 witness: resolving a state whose waker slot holds handle `7` with
`Ok 4` stores the result, clears the waker and invokes exactly handle `7`
once; resolving a wakerless state invokes nothing. -/
theorem c3_resolve_wakes_witness :
    ((State.mk (some (.ok 9)) (some 7) : State Nat).resolve (.ok 4)).1.result
      = some (.ok 4) ∧
    ((State.mk (some (.ok 9)) (some 7) : State Nat).resolve (.ok 4)).2 = [7] ∧
    ((State.default Nat).resolve (.ok 4)).2 = [] :=
  ⟨(c3_resolve_wakes (State.mk (some (.ok 9)) (some 7)) (.ok 4)).1,
   (c3_resolve_wakes (State.mk (some (.ok 9)) (some 7)) (.ok 4)).2.2.1 7 rfl,
   (c3_resolve_wakes (State.default Nat) (.ok 4)).2.2.2 rfl⟩

/-- Helper: polling a state with an empty result slot any number of times
only ever yields `Pending` and leaves the slot empty. -/
theorem pollMany_pending_of_empty {T : Type} (ws : List Waker) :
    ∀ s : State T, s.result = none →
      (Promise.pollMany s ws).1.all PollRes.isPending = true ∧
      (Promise.pollMany s ws).2.result = none := by
  induction ws with
  | nil =>
    intro s h
    exact ⟨rfl, h⟩
  | cons w rest ih =>
    intro s h
    have hstep : Promise.poll s w = (.Pending, { s with waker := some w }) := by
      simp [Promise.poll, h]
    have hq := ih { s with waker := some w } h
    constructor
    · simp [Promise.pollMany, hstep, PollRes.isPending, hq.1]
    · simp [Promise.pollMany, hstep, hq.2]

/-- C4: on a successful outcome-to-value conversion the spawned task drops
the reject (`catch`) handle without invoking it and invokes the resolve
(`then`) function with the converted value; on a failed conversion it
drops the resolve handle without invoking it and invokes the reject
function with the failure converted to an engine error value; in every
case exactly one of the two functions is invoked, so the outcome is never
silently dropped. -/
theorem c4_task_resolution (o : Except Error JSVal)
    (errorToJs : Error → JSVal) :
    (∀ v, o = .ok v →
      spawnedTask o errorToJs
        = [.awaitHost, .lockAcquire, .convertOutcome,
           .dropHandle .catchFn, .invoke .thenFn v, .lockRelease] ∧
      ∀ a, Ev.invoke .catchFn a ∉ spawnedTask o errorToJs) ∧
    (∀ e, o = .error e →
      spawnedTask o errorToJs
        = [.awaitHost, .lockAcquire, .convertOutcome,
           .dropHandle .thenFn, .invoke .catchFn (errorToJs e), .lockRelease] ∧
      ∀ a, Ev.invoke .thenFn a ∉ spawnedTask o errorToJs) ∧
    (∃ h a, Ev.invoke h a ∈ spawnedTask o errorToJs) := by
  refine ⟨?_, ?_, ?_⟩
  · intro v hv
    subst hv
    refine ⟨rfl, ?_⟩
    intro a
    simp [spawnedTask]
  · intro e he
    subst he
    refine ⟨rfl, ?_⟩
    intro a
    simp [spawnedTask]
  · cases o with
    | ok v => exact ⟨.thenFn, v, by simp [spawnedTask]⟩
    | error e => exact ⟨.catchFn, errorToJs e, by simp [spawnedTask]⟩

/-- C4 witness: with conversion outcome `Ok 3` the task drops the catch
handle and invokes the then function with `3`; with a failed conversion
(`Error.unknown`, rendered as engine value `0`) it drops the then handle
and invokes the catch function with `0`. -/
theorem c4_task_resolution_witness :
    spawnedTask (.ok 3) (fun _ => 0)
      = [.awaitHost, .lockAcquire, .convertOutcome,
         .dropHandle .catchFn, .invoke .thenFn 3, .lockRelease] ∧
    spawnedTask (.error .unknown) (fun _ => 0)
      = [.awaitHost, .lockAcquire, .convertOutcome,
         .dropHandle .thenFn, .invoke .catchFn 0, .lockRelease] :=
  ⟨((c4_task_resolution (.ok 3) (fun _ => 0)).1 3 rfl).1,
   ((c4_task_resolution (.error .unknown) (fun _ => 0)).2.1 .unknown rfl).1⟩

/-- C5: construction of `Promise<T>` fails with a TypeConversion error
when the value is not an object or lacks a callable `then`; a failure of
the initial `then` invocation is returned synchronously as the
construction error (no state is returned); construction succeeds exactly
when all three steps succeed, yielding a fresh empty state. -/
theorem c5_from_js_construction (T : Type) (v : EngineVal) :
    (v.isObject = false →
      Promise.from_js T v = .error (.typeConversion "value" "object")) ∧
    (v.isObject = true → v.hasCallableThen = false →
      Promise.from_js T v = .error (.typeConversion "value" "function")) ∧
    (∀ e, v.isObject = true → v.hasCallableThen = true →
      v.thenCallResult = .error e → Promise.from_js T v = .error e) ∧
    (v.isObject = true → v.hasCallableThen = true →
      v.thenCallResult = .ok () → Promise.from_js T v = .ok (State.default T)) := by
  refine ⟨?_, ?_, ?_, ?_⟩
  · intro h
    simp [Promise.from_js, Object.from_js, h]
  · intro h1 h2
    simp [Promise.from_js, Object.from_js, getThenFn, h1, h2]
  · intro e h1 h2 h3
    simp [Promise.from_js, Object.from_js, getThenFn, h1, h2, h3]
  · intro h1 h2 h3
    simp [Promise.from_js, Object.from_js, getThenFn, h1, h2, h3]

/-- C5 witness: a non-object, an object without callable `then`, an
object whose `then` call throws, and a fully successful construction. -/
theorem c5_from_js_construction_witness :
    Promise.from_js Nat ⟨false, false, .ok ()⟩
      = .error (.typeConversion "value" "object") ∧
    Promise.from_js Nat ⟨true, false, .ok ()⟩
      = .error (.typeConversion "value" "function") ∧
    Promise.from_js Nat ⟨true, true, .error (.exception 8)⟩
      = .error (.exception 8) ∧
    Promise.from_js Nat ⟨true, true, .ok ()⟩ = .ok (State.default Nat) :=
  ⟨(c5_from_js_construction Nat ⟨false, false, .ok ()⟩).1 rfl,
   (c5_from_js_construction Nat ⟨true, false, .ok ()⟩).2.1 rfl rfl,
   (c5_from_js_construction Nat ⟨true, true, .error (.exception 8)⟩).2.2.1
      (.exception 8) rfl rfl rfl,
   (c5_from_js_construction Nat ⟨true, true, .ok ()⟩).2.2.2 rfl rfl rfl⟩

/-- C6: the success callback stores the result of converting the incoming
value to `T`, so a conversion failure itself becomes the stored error
outcome; the error callback stores the incoming error directly, without
applying the `T` conversion. -/
theorem c6_callback_outcomes {T : Type} (convT : JSVal → Except Error T)
    (v : JSVal) (e : Error) (s t : State T) :
    (on_ok convT v s).1.result = some (convT v) ∧
    (∀ e2, convT v = .error e2 →
      (on_ok convT v s).1.result = some (.error e2)) ∧
    (on_err e t).1.result = some (.error e) := by
  refine ⟨rfl, ?_, rfl⟩
  intro e2 h
  simp [on_ok, State.resolve, h]

/-- C6 witness: a conversion that fails with a TypeConversion error is
stored as the outcome by the success callback, and the error callback
stores the incoming script error directly. -/
theorem c6_callback_outcomes_witness :
    (on_ok (fun _ => (.error (.typeConversion "value" "int") : Except Error Nat))
        5 (State.default Nat)).1.result
      = some (.error (.typeConversion "value" "int")) ∧
    (on_err (.exception 2) (State.default Nat)).1.result
      = some (.error (.exception 2)) :=
  ⟨(c6_callback_outcomes
      (fun _ => (.error (.typeConversion "value" "int") : Except Error Nat))
      5 (.exception 2) (State.default Nat) (State.default Nat)).2.1
      (.typeConversion "value" "int") rfl,
   (c6_callback_outcomes
      (fun _ => (.error (.typeConversion "value" "int") : Except Error Nat))
      5 (.exception 2) (State.default Nat) (State.default Nat)).2.2⟩

/-- C7: the claim asserts that a failed resolve/reject invocation is
logged under both resolution strategies.  Under the deferred strategy the
invocation happens later inside `resolution_job`, whose outcome is
returned to the engine's job loop; nothing on this path logs: with a call
failing with `Error.unknown`, the deferred resolve emits only the enqueue
effect and no log entry, and the job hands the failure to the loop. -/
theorem c7_deferred_does_not_log :
    resolveDeferred 0 1 = [.enqueueJob 0 1] ∧
    (resolveDeferred 0 1).countP ResolveEffect.isLog = 0 ∧
    resolution_job (fun _ _ => .error Error.unknown) 0 1
      = .error Error.unknown :=
  ⟨rfl, rfl, rfl⟩

/-- C7 (amended): a failed resolve/reject invocation is never propagated
to a caller under either strategy; under the immediate strategy it is
logged, while under the deferred strategy the invocation is enqueued as
an engine job whose failure is returned to the engine's job loop, with no
log written by this code. -/
theorem c7_amended_failure_reporting
    (call : FuncId → JSVal → Except Error JSVal) (f : FuncId) (v : JSVal)
    (e : Error) (h : call f v = .error e) :
    resolveImmediate call f v = [.callFn f v, .logError e] ∧
    resolveDeferred f v = [.enqueueJob f v] ∧
    (resolveDeferred f v).countP ResolveEffect.isLog = 0 ∧
    resolution_job call f v = .error e := by
  refine ⟨?_, rfl, rfl, h⟩
  simp [resolveImmediate, h]

/-- C7 (amended) witness: a call failing with a script exception is
logged by the immediate strategy, while the deferred strategy only
enqueues. -/
theorem c7_amended_failure_reporting_witness :
    resolveImmediate (fun _ _ => .error (.exception 4)) 2 3
      = [.callFn 2 3, .logError (.exception 4)] ∧
    resolveDeferred 2 3 = [.enqueueJob 2 3] :=
  ⟨(c7_amended_failure_reporting (fun _ _ => .error (.exception 4)) 2 3
      (.exception 4) rfl).1,
   (c7_amended_failure_reporting (fun _ _ => .error (.exception 4)) 2 3
      (.exception 4) rfl).2.1⟩

/-- C8: when the runtime handle can no longer be obtained (`try_ref`
fails), `into_js` fails with `Error::Unknown` — the error the spec
taxonomy names Unavailable — even though the promise triple was created
successfully. -/
theorem c8_runtime_unavailable (t : PromiseTriple)
    (outcomeToJs : Except Error JSVal) (errorToJs : Error → JSVal) :
    PromiseJs.into_js (.ok t) false outcomeToJs errorToJs
      = .error .unknown := by
  simp [PromiseJs.into_js]

/-- C9: the spawned task's trace starts with the await of the host
computation before any lock event, then acquires the engine lock, then
performs the conversion and exactly the resolve/reject invocation with no
intervening lock event, and ends by releasing the lock. -/
theorem c9_lock_discipline (o : Except Error JSVal)
    (errorToJs : Error → JSVal) :
    ∃ mid : List Ev,
      spawnedTask o errorToJs
        = Ev.awaitHost :: Ev.lockAcquire :: (mid ++ [Ev.lockRelease]) ∧
      Ev.lockAcquire ∉ mid ∧ Ev.lockRelease ∉ mid ∧ Ev.awaitHost ∉ mid ∧
      Ev.convertOutcome ∈ mid ∧ (∃ h a, Ev.invoke h a ∈ mid) := by
  cases o with
  | ok v =>
    refine ⟨[.convertOutcome, .dropHandle .catchFn, .invoke .thenFn v],
      rfl, ?_, ?_, ?_, ?_, ⟨.thenFn, v, ?_⟩⟩ <;> simp
  | error e =>
    refine ⟨[.convertOutcome, .dropHandle .thenFn,
             .invoke .catchFn (errorToJs e)],
      rfl, ?_, ?_, ?_, ?_, ⟨.catchFn, errorToJs e, ?_⟩⟩ <;> simp

/-- C10: once `poll` has returned `Ready` with the stored result, the
slot is empty; every subsequent poll registers the supplied wake handle
and returns `Pending`, and absent a further `resolve` no sequence of
polls ever yields a value again. -/
theorem c10_poll_not_fused {T : Type} (s : State T) (w w2 : Waker)
    (r : Except Error T) (h : s.result = some r) :
    (Promise.poll s w).1 = .Ready r ∧
    (Promise.poll s w).2.result = none ∧
    Promise.poll (Promise.poll s w).2 w2
      = (.Pending, { (Promise.poll s w).2 with waker := some w2 }) ∧
    (∀ ws : List Waker,
      (Promise.pollMany (Promise.poll s w).2 ws).1.all PollRes.isPending
        = true ∧
      (Promise.pollMany (Promise.poll s w).2 ws).2.result = none) := by
  have h1 : Promise.poll s w = (.Ready r, { s with result := none }) := by
    simp [Promise.poll, h]
  refine ⟨by rw [h1], by rw [h1], ?_, ?_⟩
  · rw [h1]
    simp [Promise.poll]
  · intro ws
    exact pollMany_pending_of_empty ws (Promise.poll s w).2 (by rw [h1])

/-- C10 witness: after a state holding `Ok 6` is polled to `Ready`, the
slot is empty, a re-poll with handle `2` registers it and is `Pending`,
and the poll sequence with handles `[2, 3]` is all `Pending`. -/
theorem c10_poll_not_fused_witness :
    (Promise.poll ({ result := some (.ok 6), waker := none } : State Nat) 1).1
      = .Ready (.ok 6) ∧
    (Promise.pollMany
      (Promise.poll ({ result := some (.ok 6), waker := none } : State Nat)
        1).2 [2, 3]).1.all PollRes.isPending = true :=
  ⟨(c10_poll_not_fused { result := some (.ok 6), waker := none } 1 2
      (.ok 6) rfl).1,
   ((c10_poll_not_fused { result := some (.ok 6), waker := none } 1 2
      (.ok 6) rfl).2.2.2 [2, 3]).1⟩

end PromiseBridge
